import Mathlib

/-!
Verification of the audio-analysis core of the laborator_filtrare repository:
WAV container parsing (src/utils/wav_parser.js), the IIR filter, window
functions, and the STFT spectrogram generator (src/unnamed/part_001 and
part_002).

Modelling conventions.
The WAV parser is embedded over exact rationals: every PCM decode path of
the source produces values that are exact in IEEE binary32, so rational
arithmetic is faithful on those paths (the sole exception, 32-bit integer
PCM, would round in a Float32Array; no theorem below touches that depth).
A JavaScript number stored in the output buffer is modelled by the type JQ,
where the value none models a stored NaN.  The spectrogram pipeline is
embedded over the real numbers, idealising IEEE double arithmetic and the
exact DFT computed by the external fft.js library.  JavaScript division by
zero (Infinity) does not arise on any path a theorem below exercises; where
the source could hit it (sampleRate = 0, numChannels = 0 in a crafted WAV)
the rational embedding differs and no theorem depends on those corners.
-/

/-- A JavaScript number held in a parsed sample buffer: a rational, or NaN. -/
abbrev JQ := Option ℚ

/-- JavaScript addition on buffer values; NaN absorbs. -/
def jAdd : JQ → JQ → JQ
  | some a, some b => some (a + b)
  | _, _ => none

/-- JavaScript division of a buffer value by a channel count; NaN absorbs. -/
def jDivNat (v : JQ) (n : ℕ) : JQ := v.map (fun q => q / (n : ℚ))

/-- The clamp at wav_parser.js line 216: Math.max(-1, Math.min(1, v)). -/
def qClamp (q : ℚ) : ℚ := max (-1) (min 1 q)

/-- The errors the WAV parser can throw.  Each constructor stands for one
throw site of extractRawPCMFromWAV (the JavaScript code throws Error values
with fixed message strings; the constructor names abbreviate them). -/
inductive WavErr where
  /-- A DataView read past the end of the buffer (RangeError). -/
  | rangeError
  /-- Error: Invalid WAV file: No RIFF header. -/
  | noRiff
  /-- Error: Invalid WAV file: No WAVE format. -/
  | noWave
  /-- Error: Invalid WAV file: No fmt chunk. -/
  | noFmt
  /-- Error: Invalid WAV file: No data chunk. -/
  | noData
  /-- Error: Invalid WAV file: Data chunk is empty. -/
  | emptyData
  /-- Error: Unsupported 32-bit WAV format type (the format code). -/
  | unsupported32 (fmt : ℕ)
  /-- Error: Unsupported WAV bit depth (the declared bit depth). -/
  | unsupportedDepth (bits : ℕ)
deriving DecidableEq

/-- The record returned by extractRawPCMFromWAV. -/
structure WavResult where
  samples : List JQ
  originalSamples : List JQ
  sampleRate : ℕ
  numChannels : ℕ
  bitsPerSample : ℕ
  numSamples : ℕ
  duration : ℚ
deriving DecidableEq

/-- A bounds-checked byte read: DataView.getUint8 throws a RangeError when
the offset is outside the buffer. -/
def getU8 (bytes : List ℕ) (i : ℕ) : Except WavErr ℕ :=
  if i + 1 ≤ bytes.length then .ok (bytes.getD i 0) else .error .rangeError

/-- Bounds-checked little-endian 16-bit read (DataView.getUint16). -/
def getU16le (bytes : List ℕ) (i : ℕ) : Except WavErr ℕ :=
  if i + 2 ≤ bytes.length then
    .ok (bytes.getD i 0 + 256 * bytes.getD (i+1) 0)
  else .error .rangeError

/-- Bounds-checked little-endian 32-bit read (DataView.getUint32). -/
def getU32le (bytes : List ℕ) (i : ℕ) : Except WavErr ℕ :=
  if i + 4 ≤ bytes.length then
    .ok (bytes.getD i 0 + 256 * bytes.getD (i+1) 0 +
         65536 * bytes.getD (i+2) 0 + 16777216 * bytes.getD (i+3) 0)
  else .error .rangeError

/-- Unchecked byte read, used only where the surrounding scan has already
established that the offset is in bounds. -/
def getU8d (bytes : List ℕ) (i : ℕ) : ℕ := bytes.getD i 0

/-- Unchecked little-endian 32-bit read (in-bounds by the scan condition). -/
def getU32d (bytes : List ℕ) (i : ℕ) : ℕ :=
  getU8d bytes i + 256 * getU8d bytes (i+1) +
    65536 * getU8d bytes (i+2) + 16777216 * getU8d bytes (i+3)

/-- The four chunk-id bytes at an offset. -/
def chunkIdAt (bytes : List ℕ) (off : ℕ) : List ℕ :=
  [getU8d bytes off, getU8d bytes (off+1), getU8d bytes (off+2), getU8d bytes (off+3)]

/-- The chunk scan of wav_parser.js (lines 70-91 for fmt, 111-135 for data):
starting at an offset, while offset < byteLength - 8, compare the 4-byte
chunk id, otherwise skip id + size + declared chunk size, plus a pad byte
when the size is odd.  The fuel argument only bounds the recursion; each
step advances the offset by at least 8, so fuel = byteLength + 1 never runs
out before the scan condition fails. -/
def findChunk (bytes : List ℕ) (id : List ℕ) : ℕ → ℕ → Option ℕ
  | 0, _ => none
  | fuel+1, off =>
    if (off : ℤ) < (bytes.length : ℤ) - 8 then
      if chunkIdAt bytes off = id then some off
      else
        findChunk bytes id fuel
          (off + 8 + getU32d bytes (off+4) +
            (if getU32d bytes (off+4) % 2 = 1 then 1 else 0))
    else none

/-- An IEEE binary32 value: a finite rational, an infinity, or NaN. -/
inductive F32 where
  | finite (q : ℚ)
  | inf
  | negInf
  | nan
deriving DecidableEq

/-- Math.max(-1, Math.min(1, v)) on a decoded 32-bit float: the minimum of
1 and +Infinity is 1, the maximum of -1 and -Infinity is -1, NaN stays NaN. -/
def clampF32 : F32 → JQ
  | .finite q => some (qClamp q)
  | .inf => some 1
  | .negInf => some (-1)
  | .nan => none

/-- Little-endian IEEE binary32 decode (DataView.getFloat32): sign bit,
8-bit exponent, 23-bit mantissa; exponent 255 encodes infinities and NaN,
exponent 0 the denormals. -/
def getF32le (bytes : List ℕ) (off : ℕ) : F32 :=
  let bits := getU8d bytes off + 256 * getU8d bytes (off+1) +
    65536 * getU8d bytes (off+2) + 16777216 * getU8d bytes (off+3)
  let sign := bits / 2147483648
  let ex := bits / 8388608 % 256
  let man := bits % 8388608
  if ex = 255 then
    if man = 0 then (if sign = 1 then .negInf else .inf) else .nan
  else
    .finite ((if sign = 1 then (-1 : ℚ) else 1) *
      (if ex = 0 then (man : ℚ) * (2 : ℚ) ^ (-149 : ℤ)
       else ((8388608 + man : ℕ) : ℚ) * (2 : ℚ) ^ ((ex : ℤ) - 150)))

/-- DataView.getInt16 (little-endian): two's-complement reinterpretation. -/
def int16OfBytes (b0 b1 : ℕ) : ℤ :=
  (b0 + 256 * b1 : ℤ) - (if 32768 ≤ b0 + 256 * b1 then 65536 else 0)

/-- DataView.getInt32 (little-endian): two's-complement reinterpretation. -/
def int32OfBytes (b0 b1 b2 b3 : ℕ) : ℤ :=
  (b0 + 256 * b1 + 65536 * b2 + 16777216 * b3 : ℤ) -
    (if 2147483648 ≤ b0 + 256 * b1 + 65536 * b2 + 16777216 * b3 then 4294967296 else 0)

/-- ToIndex truncation of a (possibly fractional) DataView offset.  On every
supported bit depth the offset is integral; it is fractional only on paths
that throw before reading. -/
def qIdx (off : ℚ) : ℕ := off.floor.toNat

/-- One sample decode: the switch of wav_parser.js lines 175-214, including
the clamp of line 216.  Unsupported bit depths and 32-bit format codes other
than 1 and 3 throw from inside the loop. -/
def decodeSampleAt (bytes : List ℕ) (bits fmt : ℕ) (off : ℚ) : Except WavErr JQ :=
  match bits with
  | 8 => .ok (some (qClamp (((getU8d bytes (qIdx off) : ℚ) - 128) / 128)))
  | 16 => .ok (some (qClamp
      ((int16OfBytes (getU8d bytes (qIdx off)) (getU8d bytes (qIdx off + 1)) : ℚ) / 32768)))
  | 24 =>
    .ok (some (qClamp
      (((getU8d bytes (qIdx off) + 256 * getU8d bytes (qIdx off + 1) +
          65536 * getU8d bytes (qIdx off + 2) : ℤ) -
        (if 8388608 ≤ getU8d bytes (qIdx off) + 256 * getU8d bytes (qIdx off + 1) +
            65536 * getU8d bytes (qIdx off + 2) then 16777216 else 0) : ℚ) / 8388608)))
  | 32 =>
    if fmt = 1 then
      .ok (some (qClamp
        ((int32OfBytes (getU8d bytes (qIdx off)) (getU8d bytes (qIdx off + 1))
          (getU8d bytes (qIdx off + 2)) (getU8d bytes (qIdx off + 3)) : ℚ) / 2147483648)))
    else if fmt = 3 then
      .ok (clampF32 (getF32le bytes (qIdx off)))
    else .error (.unsupported32 fmt)
  | b => .error (.unsupportedDepth b)

/-- The sample-extraction loop of wav_parser.js lines 163-217.  The first
argument of the recursion is the number of remaining loop iterations; the
second is the loop counter i.  The loop breaks (returning the samples read
so far) as soon as the next read would pass the declared end of the data
chunk or the end of the buffer. -/
def wavDecodeLoop (bytes : List ℕ) (bits fmt : ℕ) (dataOffset dataChunkSize : ℕ)
    (bps : ℚ) : ℕ → ℕ → Except WavErr (List JQ)
  | 0, _ => .ok []
  | fuel+1, i =>
    if (dataOffset : ℚ) + dataChunkSize < (dataOffset : ℚ) + i * bps + bps ∨
       (bytes.length : ℚ) < (dataOffset : ℚ) + i * bps + bps then
      .ok []
    else do
      let v ← decodeSampleAt bytes bits fmt ((dataOffset : ℚ) + i * bps)
      let rest ← wavDecodeLoop bytes bits fmt dataOffset dataChunkSize bps fuel (i+1)
      return v :: rest

/-- The per-frame channel sum of the mono mixdown (wav_parser.js lines
232-236): sum = 0; for each channel, sum += finalSamples[i*nc+ch]. -/
def jChannelSum (finalSamples : List JQ) (numChannels i : ℕ) : JQ :=
  (List.range numChannels).foldl
    (fun acc ch => jAdd acc (finalSamples.getD (i * numChannels + ch) (some 0))) (some 0)

/-- Everything after the header scans of extractRawPCMFromWAV (lines
144-251): sample-count arithmetic, the empty-data check, the decode loop,
the mono mixdown and the result record.  totalSamples is the JavaScript
real division dataChunkSize / (bits/8); the loop runs while i < totalSamples,
hence ceil many iterations.  (The Float32Array preallocation of length
ToIndex(totalSamples) never truncates a stored sample, because the bounds
check breaks at or before floor(totalSamples); it is therefore not
modelled.) -/
def wavDecodePhase (bytes : List ℕ) (audioFormat numChannels sampleRate bits : ℕ)
    (dataOffset dataChunkSize : ℕ) : Except WavErr WavResult :=
  let bps : ℚ := (bits : ℚ) / 8
  let totalSamples : ℚ := (dataChunkSize : ℚ) / bps
  if totalSamples / (numChannels : ℚ) ≤ 0 then .error .emptyData
  else
    match wavDecodeLoop bytes bits audioFormat dataOffset dataChunkSize bps
        ⌈totalSamples⌉.toNat 0 with
    | .error e => .error e
    | .ok finalSamples =>
      let actualPerChannel := finalSamples.length / numChannels
      .ok { samples :=
              if 1 < numChannels then
                (List.range actualPerChannel).map
                  (fun i => jDivNat (jChannelSum finalSamples numChannels i) numChannels)
              else finalSamples,
            originalSamples := finalSamples,
            sampleRate := sampleRate,
            numChannels := numChannels,
            bitsPerSample := bits,
            numSamples := actualPerChannel,
            duration := (actualPerChannel : ℚ) / (sampleRate : ℚ) }

/-- extractRawPCMFromWAV of src/utils/wav_parser.js, taking the byte array
obtained from the base64 input (the atob plumbing is outside the model).
Header validation, the two chunk scans, format-field reads and the decode
phase, in source order. -/
def extractRawPCMFromWAV (bytes : List ℕ) : Except WavErr WavResult := do
  let r0 ← getU8 bytes 0
  let r1 ← getU8 bytes 1
  let r2 ← getU8 bytes 2
  let r3 ← getU8 bytes 3
  if [r0, r1, r2, r3] ≠ [82, 73, 70, 70] then .error .noRiff
  else do
    let w0 ← getU8 bytes 8
    let w1 ← getU8 bytes 9
    let w2 ← getU8 bytes 10
    let w3 ← getU8 bytes 11
    if [w0, w1, w2, w3] ≠ [87, 65, 86, 69] then .error .noWave
    else
      match findChunk bytes [102, 109, 116, 32] (bytes.length + 1) 12 with
      | none => .error .noFmt
      | some fmtOffset => do
        let audioFormat ← getU16le bytes (fmtOffset + 8)
        let numChannels ← getU16le bytes (fmtOffset + 10)
        let sampleRate ← getU32le bytes (fmtOffset + 12)
        let bits ← getU16le bytes (fmtOffset + 22)
        match findChunk bytes [100, 97, 116, 97] (bytes.length + 1) 12 with
        | none => .error .noData
        | some dataStart =>
          wavDecodePhase bytes audioFormat numChannels sampleRate bits
            (dataStart + 8) (getU32d bytes (dataStart + 4))

/-- A test WAV container: RIFF/WAVE header, a 16-byte fmt chunk (PCM format
code 1, the given channel count and bit depth, sample rate 44100), then a
data chunk whose size field carries the given declared size, followed by the
given payload bytes.  The data chunk starts at byte offset 44. -/
def mkWavBytes (numChannels bits declared : ℕ) (payload : List ℕ) : List ℕ :=
  [82, 73, 70, 70, 0, 0, 0, 0, 87, 65, 86, 69,
   102, 109, 116, 32, 16, 0, 0, 0,
   1, 0,
   numChannels % 256, numChannels / 256 % 256,
   68, 172, 0, 0,
   0, 0, 0, 0, 0, 0,
   bits % 256, bits / 256 % 256,
   100, 97, 116, 97,
   declared % 256, declared / 256 % 256, declared / 65536 % 256, declared / 16777216 % 256]
  ++ payload

/-- The 16-bit sample a test WAV payload decodes to at interleaved index j. -/
def wav16OfPayload (payload : List ℕ) (j : ℕ) : JQ :=
  some (qClamp ((int16OfBytes (payload.getD (2*j) 0) (payload.getD (2*j+1) 0) : ℚ) / 32768))

/-- Projection: the mono sample list of a successful parse. -/
def wavSamples? : Except WavErr WavResult → Option (List JQ)
  | .ok r => some r.samples
  | .error _ => none

/-- Projection: the per-channel sample count of a successful parse. -/
def wavNumSamples? : Except WavErr WavResult → Option ℕ
  | .ok r => some r.numSamples
  | .error _ => none

/-- Projection: the duration of a successful parse. -/
def wavDuration? : Except WavErr WavResult → Option ℚ
  | .ok r => some r.duration
  | .error _ => none

/-- The window types of src/unnamed/part_001. -/
inductive WindowType where
  | hanning
  | hamming
  | blackman
  | bartlett
  | rectangular
deriving DecidableEq

/-- createWindow of src/unnamed/part_001 lines 6-47: one weight per index i
in [0, length), by the closed-form formula of the selected type.  The
divisor length - 1 is JavaScript real subtraction. -/
noncomputable def createWindow (length : ℕ) (t : WindowType) : List ℝ :=
  (List.range length).map (fun (i : ℕ) =>
    match t with
    | .hanning => 0.5 * (1 - Real.cos (2 * Real.pi * i / ((length : ℝ) - 1)))
    | .hamming => 0.54 - 0.46 * Real.cos (2 * Real.pi * i / ((length : ℝ) - 1))
    | .blackman =>
        0.42 - 0.5 * Real.cos (2 * Real.pi * i / ((length : ℝ) - 1)) +
          0.08 * Real.cos (2 * (2 * Real.pi * i / ((length : ℝ) - 1)))
    | .bartlett =>
        2 / ((length : ℝ) - 1) *
          (((length : ℝ) - 1) / 2 - |(i : ℝ) - ((length : ℝ) - 1) / 2|)
    | .rectangular => 1)

/-- dbToLinear of src/unnamed/part_001 lines 51-55: zero at or below
-160 dB, otherwise 10^(db/20). -/
noncomputable def dbToLinear (db : ℝ) : ℝ :=
  if db ≤ -160 then 0 else (10 : ℝ) ^ (db / 20)

/-- linearToDb of src/unnamed/part_001 lines 58-62: 20 * log10 of the
magnitude floored at 1e-10. -/
noncomputable def linearToDb (linear : ℝ) : ℝ :=
  20 * Real.logb 10 (max linear 1e-10)

/-- The options record of src/unnamed/part_001 (SpectrogramOptions), with
the destructuring defaults of calculateSpectrum and generateSpectrogram
baked in.  Fields that affect only rendering (scaleType, minFreq, maxFreq,
dynamicRange, sineWaveFrequency, colorMap) are never read by the generator
and are omitted from the model. -/
structure SpectrogramOptions where
  samplingRate : ℝ := 44100
  fftSize : ℤ := 1024
  overlap : ℝ := 0.75
  windowType : WindowType := .hanning
  duration : Option ℝ := none

/-- The errors generateSpectrogram and calculateSpectrum can raise.  Each
constructor stands for one throw site (the source throws Error values with
fixed messages; constructor names abbreviate them). -/
inductive GenErr where
  /-- Error: Invalid empty input data (generateSpectrogram line 192). -/
  | invalidEmptyInput
  /-- RangeError: invalid typed array length — new Float32Array(fftSize)
  inside createWindow when fftSize is negative. -/
  | typedArrayRange
  /-- Error: FFT size must be a power of two and bigger than 1 — the
  constructor of the external fft.js library. -/
  | fftSizeInvalid
deriving DecidableEq

/-- Real part of DFT bin k of the first n entries of x, as computed by the
fft.js transform (idealised to exact reals): X_k = sum_j x_j e^(-2 pi i j k / n). -/
noncomputable def dftRe (x : List ℝ) (n k : ℕ) : ℝ :=
  ((List.range n).map (fun j => x.getD j 0 * Real.cos (2 * Real.pi * j * k / n))).sum

/-- Imaginary part of DFT bin k (same convention as dftRe). -/
noncomputable def dftIm (x : List ℝ) (n k : ℕ) : ℝ :=
  -((List.range n).map (fun j => x.getD j 0 * Real.sin (2 * Real.pi * j * k / n))).sum

/-- The numerical core of calculateSpectrum (src/unnamed/part_001 lines
99-147) for a valid FFT size n: pad or truncate the frame to n samples,
multiply by the window, take the DFT, and return the first n/2 magnitudes
sqrt(re^2 + im^2). -/
noncomputable def calcFrame (n : ℕ) (frame : List ℝ) (t : WindowType) : List ℝ :=
  (List.range (n / 2)).map (fun (k : ℕ) =>
    Real.sqrt
      (dftRe ((List.range n).map (fun i =>
          (frame.take n ++ List.replicate (n - frame.length) 0).getD i 0 *
            (createWindow n t).getD i 0)) n k ^ 2 +
       dftIm ((List.range n).map (fun i =>
          (frame.take n ++ List.replicate (n - frame.length) 0).getD i 0 *
            (createWindow n t).getD i 0)) n k ^ 2))

/-- The frequency axis of calculateSpectrum lines 136-147:
frequencies[k] = k * (samplingRate / fftSize) for k in [0, fftSize/2). -/
noncomputable def calcFreqs (n : ℕ) (samplingRate : ℝ) : List ℝ :=
  (List.range (n / 2)).map (fun (k : ℕ) => (k : ℝ) * (samplingRate / n))

/-- calculateSpectrum of src/unnamed/part_001 lines 89-155, returning the
linear magnitude spectrum and the frequency axis.  A negative fftSize makes
createWindow allocate a negative-length Float32Array (RangeError); a
non-power-of-two or too-small fftSize makes the fft.js constructor throw.
Both happen before any magnitude is produced. -/
noncomputable def calculateSpectrum (audioSamples : List ℝ) (o : SpectrogramOptions) :
    Except GenErr (List ℝ × List ℝ) :=
  if o.fftSize < 0 then .error .typedArrayRange
  else if ¬ (1 < o.fftSize.toNat ∧ o.fftSize.toNat &&& (o.fftSize.toNat - 1) = 0) then
    .error .fftSizeInvalid
  else
    .ok (calcFrame o.fftSize.toNat audioSamples o.windowType,
         calcFreqs o.fftSize.toNat o.samplingRate)

/-- A metering entry of the dB fallback input: a number, or one of the
invalid values the source tests for (undefined, null, NaN, -Infinity). -/
inductive MeterVal where
  | num (db : ℝ)
  | undef
  | nullv
  | nan
  | negInf

/-- The per-entry conversion of generateSpectrogram lines 213-220: invalid
entries become dbToLinear(-160), numbers are clamped into [-160, 0] and then
converted. -/
noncomputable def meterToLinear : MeterVal → ℝ
  | .num db => dbToLinear (max (-160) (min 0 db))
  | .undef => dbToLinear (-160)
  | .nullv => dbToLinear (-160)
  | .nan => dbToLinear (-160)
  | .negInf => dbToLinear (-160)

/-- The audio input of generateSpectrogram: raw PCM samples (Float32Array)
or dB metering data (number array). -/
inductive AudioInput where
  | pcm (samples : List ℝ)
  | metering (values : List MeterVal)

/-- The length of the raw input (checked before any conversion). -/
def audioInputLength : AudioInput → ℕ
  | .pcm s => s.length
  | .metering m => m.length

/-- Input preparation (generateSpectrogram lines 199-221): PCM passes
through; metering data is converted entrywise. -/
noncomputable def prepareInput : AudioInput → List ℝ
  | .pcm s => s
  | .metering m => m.map meterToLinear

/-- The zero padding of generateSpectrogram lines 227-233: samples shorter
than fftSize are padded to fftSize. -/
noncomputable def genPadded (s : List ℝ) (fftSize : ℤ) : List ℝ :=
  if (s.length : ℤ) < fftSize then s ++ List.replicate (fftSize.toNat - s.length) 0 else s

/-- hopSize = Math.floor(fftSize * (1 - overlap)) (line 238). -/
noncomputable def genHop (fftSize : ℤ) (overlap : ℝ) : ℤ :=
  ⌊(fftSize : ℝ) * (1 - overlap)⌋

/-- Array.prototype.slice(0, e) with a possibly negative end index, as used
at line 247. -/
def jsSliceZero (l : List ℝ) (e : ℤ) : List ℝ :=
  if e < 0 then l.take ((l.length : ℤ) + e).toNat else l.take e.toNat

/-- The loop iteration count of line 240,
totalTimeFrames = Math.max(1, Math.floor((N - fftSize) / hopSize) + 1),
under JavaScript number semantics.  When hopSize = 0 the division is by
zero: 0/0 is NaN, and a for-loop bounded by NaN runs no iterations (some 0);
a positive numerator gives +Infinity and the loop never terminates (none);
a negative numerator gives -Infinity and Math.max yields 1 (some 1). -/
def totalTimeFramesJS (N fftSize hop : ℤ) : Option ℤ :=
  if hop = 0 then
    if N = fftSize then some 0
    else if fftSize < N then none
    else some 1
  else some (max 1 (⌊((N - fftSize : ℚ)) / (hop : ℚ)⌋ + 1))

/-- The result record of generateSpectrogram. -/
structure SpectrogramResult where
  spectrogram : List (List ℝ)
  times : List ℝ
  frequencies : List ℝ
  options : SpectrogramOptions

/-- The observable outcome of a generateSpectrogram call: a thrown error, an
infinite loop, or a result. -/
inductive GenOutcome where
  | err (e : GenErr)
  | diverges
  | ok (r : SpectrogramResult)

/-- One iteration of the frame loop (lines 255-281): frames that would read
past the end of the samples are skipped; a kept frame contributes its dB
spectrum and its time stamp.  On every reachable path the frame start
i * hop is nonnegative (hop < 0 forces a single iteration with i = 0),
justifying the toNat. -/
noncomputable def genFrameStep (samples : List ℝ) (o : SpectrogramOptions)
    (hop T : ℤ) (D : ℝ) (i : ℕ) : Option (List ℝ × ℝ) :=
  if (samples.length : ℤ) < (i : ℤ) * hop + o.fftSize then none
  else some
    ((calcFrame o.fftSize.toNat
        ((samples.drop ((i : ℤ) * hop).toNat).take o.fftSize.toNat) o.windowType).map
      linearToDb,
     if 1 < T then ((i : ℝ) / ((T : ℝ) - 1)) * D else D / 2)

/-- The frame loop and result assembly of generateSpectrogram (lines
236-295), after the frequency axis has been computed.  The loop calls
calculateSpectrum with the same options as the line-247 call that has
already succeeded, so its guards cannot fire again and only the numerical
core calcFrame remains. -/
noncomputable def genBody (samples : List ℝ) (o : SpectrogramOptions)
    (frequencies : List ℝ) : GenOutcome :=
  match totalTimeFramesJS (samples.length : ℤ) o.fftSize (genHop o.fftSize o.overlap) with
  | none => .diverges
  | some T =>
    .ok { spectrogram :=
            ((List.range T.toNat).filterMap
              (genFrameStep samples o (genHop o.fftSize o.overlap) T
                ((samples.length : ℝ) / o.samplingRate))).map Prod.fst,
          times :=
            ((List.range T.toNat).filterMap
              (genFrameStep samples o (genHop o.fftSize o.overlap) T
                ((samples.length : ℝ) / o.samplingRate))).map Prod.snd,
          frequencies := frequencies,
          options := { o with duration := some ((samples.length : ℝ) / o.samplingRate) } }

/-- generateSpectrogram of src/unnamed/part_001 lines 162-296: empty-input
check, input preparation and padding, the line-247 frequency-axis
computation (whose thrown errors preempt the loop), then the frame loop. -/
noncomputable def generateSpectrogram (input : AudioInput) (o : SpectrogramOptions) :
    GenOutcome :=
  if audioInputLength input = 0 then .err .invalidEmptyInput
  else
    match calculateSpectrum
        (jsSliceZero (genPadded (prepareInput input) o.fftSize) o.fftSize) o with
    | .error e => .err e
    | .ok (_, frequencies) => genBody (genPadded (prepareInput input) o.fftSize) o frequencies

/-- Projection: the number of spectrogram rows of a successful generation. -/
def GenOutcome.rowsLen? : GenOutcome → Option ℕ
  | .ok r => some r.spectrogram.length
  | _ => none

/-- Projection: the number of time stamps of a successful generation. -/
def GenOutcome.timesLen? : GenOutcome → Option ℕ
  | .ok r => some r.times.length
  | _ => none

/-- applyIIRFilter of src/unnamed/part_002: Direct Form I.  The outputs are
built left to right; output n is (feedforward - feedback) / a0 where the
sums skip negative signal indices, and a0 is a[0] unless a[0] is falsy
(absent or zero), in which case 1. -/
noncomputable def applyIIRFilter (samples b a : List ℝ) : List ℝ :=
  (List.range samples.length).foldl
    (fun ys n =>
      ys ++ [((((List.range b.length).map
                  (fun k => if k ≤ n then b.getD k 0 * samples.getD (n - k) 0 else 0)).sum -
               ((List.range a.length).map
                  (fun k => if 1 ≤ k ∧ k ≤ n then a.getD k 0 * ys.getD (n - k) 0 else 0)).sum) /
             (if a.getD 0 0 = 0 then 1 else a.getD 0 0))])
    []

/-- The length of the output list built by successively appending one value
per loop index, as the IIR loop does. -/
lemma foldl_append_length (v : List ℝ → ℕ → ℝ) :
    ∀ (l : List ℕ) (acc : List ℝ),
      (l.foldl (fun ys n => ys ++ [v ys n]) acc).length = acc.length + l.length := by
  intro l
  induction l with
  | nil => intro acc; simp
  | cons x xs ih =>
    intro acc
    rw [List.foldl_cons, ih]
    simp
    omega

/-- When the appended value does not depend on the accumulator, the IIR loop
is a map. -/
lemma foldl_append_const (f : ℕ → ℝ) :
    ∀ (l : List ℕ) (acc : List ℝ),
      l.foldl (fun ys n => ys ++ [f n]) acc = acc ++ l.map f := by
  intro l
  induction l with
  | nil => intro acc; simp
  | cons x xs ih => intro acc; simp [ih]

/-- Reading every index of a list back with getD reproduces the list. -/
lemma map_getD_range (l : List ℝ) :
    (List.range l.length).map (fun n => l.getD n 0) = l := by
  apply List.ext_getElem
  · simp
  · intro i h1 h2
    simp only [List.getElem_map, List.getElem_range]
    rw [List.getD_eq_getElem l 0 h2]

/-- C6: applyIIRFilter with coefficients b = [1], a = [1] is the identity on
the input samples, and for every coefficient choice the output has the same
length as the input. -/
theorem c6_iir_identity_and_length :
    (∀ x : List ℝ, applyIIRFilter x [1] [1] = x) ∧
    (∀ (x b a : List ℝ), (applyIIRFilter x b a).length = x.length) := by
  constructor
  · intro x
    have hstep : ∀ (ys : List ℝ) (n : ℕ),
        (((List.range ([(1:ℝ)].length)).map
            (fun k => if k ≤ n then [(1:ℝ)].getD k 0 * x.getD (n - k) 0 else 0)).sum -
         ((List.range ([(1:ℝ)].length)).map
            (fun k => if 1 ≤ k ∧ k ≤ n then [(1:ℝ)].getD k 0 * ys.getD (n - k) 0 else 0)).sum) /
        (if [(1:ℝ)].getD 0 0 = 0 then 1 else [(1:ℝ)].getD 0 0) = x.getD n 0 := by
      intro ys n
      norm_num [List.range_succ]
    unfold applyIIRFilter
    calc (List.range x.length).foldl
          (fun ys n => ys ++
            [(((List.range ([(1:ℝ)].length)).map
                (fun k => if k ≤ n then [(1:ℝ)].getD k 0 * x.getD (n - k) 0 else 0)).sum -
              ((List.range ([(1:ℝ)].length)).map
                (fun k => if 1 ≤ k ∧ k ≤ n then [(1:ℝ)].getD k 0 * ys.getD (n - k) 0 else 0)).sum) /
             (if [(1:ℝ)].getD 0 0 = 0 then 1 else [(1:ℝ)].getD 0 0)]) []
        = (List.range x.length).foldl (fun ys n => ys ++ [x.getD n 0]) [] := by
          congr 1
          funext ys n
          rw [hstep]
      _ = [] ++ (List.range x.length).map (fun n => x.getD n 0) := foldl_append_const _ _ _
      _ = x := by rw [List.nil_append, map_getD_range]
  · intro x b a
    unfold applyIIRFilter
    rw [foldl_append_length]
    simp

/-- C7: for every length N > 1, the rectangular window is all ones, and the
hanning window is zero at both endpoints. -/
theorem c7_window_endpoints (n : ℕ) (hn : 1 < n) :
    createWindow n .rectangular = List.replicate n 1 ∧
    (createWindow n .hanning).getD 0 0 = 0 ∧
    (createWindow n .hanning).getD (n - 1) 0 = 0 := by
  have hlen : ∀ t, (createWindow n t).length = n := by
    intro t
    simp only [createWindow, List.length_map, List.length_range]
  refine ⟨?_, ?_, ?_⟩
  · apply List.ext_getElem
    · rw [hlen, List.length_replicate]
    · intro i h1 h2
      simp only [createWindow, List.getElem_map, List.getElem_range, List.getElem_replicate]
  · have h0 : 0 < (createWindow n .hanning).length := by rw [hlen]; omega
    rw [List.getD_eq_getElem _ _ h0]
    simp only [createWindow, List.getElem_map, List.getElem_range]
    norm_num
  · have h0 : n - 1 < (createWindow n .hanning).length := by rw [hlen]; omega
    rw [List.getD_eq_getElem _ _ h0]
    simp only [createWindow, List.getElem_map, List.getElem_range]
    have hcast : ((n - 1 : ℕ) : ℝ) = (n : ℝ) - 1 := by
      have h1 : (1 : ℕ) ≤ n := by omega
      push_cast [h1]
      ring
    have hne : (n : ℝ) - 1 ≠ 0 := by
      have h2 : (2 : ℝ) ≤ (n : ℝ) := by exact_mod_cast hn
      intro h
      nlinarith
    rw [hcast, mul_div_assoc, div_self hne, mul_one, Real.cos_two_pi]
    ring

/-- Witness for C7 at N = 4. -/
theorem c7_window_endpoints_witness :
    (1 < 4) ∧
    (createWindow 4 .rectangular = List.replicate 4 1 ∧
     (createWindow 4 .hanning).getD 0 0 = 0 ∧
     (createWindow 4 .hanning).getD (4 - 1) 0 = 0) :=
  ⟨by norm_num, c7_window_endpoints 4 (by norm_num)⟩

/-- A number at or below -160 dB converts to 0 (the dbToLinear cutoff). -/
lemma meterToLinear_of_le (db : ℝ) (h : db ≤ -160) : meterToLinear (.num db) = 0 := by
  have h1 : min 0 db = db := min_eq_right (by linarith)
  have h2 : max (-160 : ℝ) db = -160 := max_eq_left (by linarith)
  simp [meterToLinear, h1, h2, dbToLinear]

/-- C3 (amended): the metering fallback converts entrywise; numbers in
(-160, 0] convert via 10^(db/20); numbers above 0 dB clamp to 0 dB and
convert to 1; numbers at or below -160 dB and all invalid entries yield 0,
because dbToLinear returns 0 at or below -160 dB instead of 10^(-160/20). -/
theorem c3_metering_conversion :
    (∀ l : List MeterVal, prepareInput (.metering l) = l.map meterToLinear) ∧
    (∀ db : ℝ, db ≤ -160 → meterToLinear (.num db) = 0) ∧
    (∀ db : ℝ, -160 < db → db ≤ 0 → meterToLinear (.num db) = (10 : ℝ) ^ (db / 20)) ∧
    (∀ db : ℝ, 0 < db → meterToLinear (.num db) = 1) ∧
    (meterToLinear .undef = 0 ∧ meterToLinear .nullv = 0 ∧
     meterToLinear .nan = 0 ∧ meterToLinear .negInf = 0) := by
  have hbase : dbToLinear (-160) = 0 := by
    simp [dbToLinear]
  refine ⟨fun l => rfl, meterToLinear_of_le, ?_, ?_, ?_, ?_, ?_, ?_⟩
  · intro db h1 h2
    have h3 : min 0 db = db := min_eq_right h2
    have h4 : max (-160 : ℝ) db = db := max_eq_right (by linarith)
    simp only [meterToLinear, h3, h4, dbToLinear]
    rw [if_neg (by linarith)]
  · intro db h
    have h1 : min 0 db = 0 := min_eq_left (by linarith)
    have h2 : max (-160 : ℝ) (0 : ℝ) = 0 := max_eq_right (by norm_num)
    simp only [meterToLinear, h1, h2, dbToLinear]
    rw [if_neg (by norm_num)]
    norm_num
  · simpa only [meterToLinear] using hbase
  · simpa only [meterToLinear] using hbase
  · simpa only [meterToLinear] using hbase
  · simpa only [meterToLinear] using hbase

/-- Witness for C3 at db = -20. -/
theorem c3_metering_conversion_witness :
    ((-160 : ℝ) < -20 ∧ (-20 : ℝ) ≤ 0) ∧
    meterToLinear (.num (-20)) = (10 : ℝ) ^ ((-20 : ℝ) / 20) :=
  ⟨⟨by norm_num, by norm_num⟩,
   c3_metering_conversion.2.2.1 (-20) (by norm_num) (by norm_num)⟩

/-- C3 counterexample: a valid -200 dB entry is clamped to -160 dB and then
mapped to 0 by the code, while the claimed formula 10^(db/20) gives the
nonzero value 10^(-160/20). -/
theorem c3_boundary_counterexample :
    prepareInput (.metering [.num (-200)]) = [0] ∧
    (10 : ℝ) ^ ((-160 : ℝ) / 20) ≠ 0 := by
  constructor
  · simp only [prepareInput, List.map]
    rw [meterToLinear_of_le (-200) (by norm_num)]
  · exact (Real.rpow_pos_of_pos (by norm_num) _).ne'

/-- Length of the test container. -/
lemma mkWav_length (nc bits d : ℕ) (p : List ℕ) :
    (mkWavBytes nc bits d p).length = 44 + p.length := by
  simp [mkWavBytes]
  omega

/-- A checked byte read inside the 44-byte header succeeds. -/
lemma getU8_mkWav (nc bits d : ℕ) (p : List ℕ) (i : ℕ) (h : i < 44) :
    getU8 (mkWavBytes nc bits d p) i = .ok ((mkWavBytes nc bits d p).getD i 0) := by
  simp only [getU8]
  rw [if_pos]
  rw [mkWav_length]
  omega

/-- A checked 16-bit read inside the 44-byte header succeeds. -/
lemma getU16_mkWav (nc bits d : ℕ) (p : List ℕ) (i : ℕ) (h : i + 1 < 44) :
    getU16le (mkWavBytes nc bits d p) i =
      .ok ((mkWavBytes nc bits d p).getD i 0 + 256 * (mkWavBytes nc bits d p).getD (i+1) 0) := by
  simp only [getU16le]
  rw [if_pos]
  rw [mkWav_length]
  omega

/-- A checked 32-bit read inside the 44-byte header succeeds. -/
lemma getU32_mkWav (nc bits d : ℕ) (p : List ℕ) (i : ℕ) (h : i + 3 < 44) :
    getU32le (mkWavBytes nc bits d p) i =
      .ok ((mkWavBytes nc bits d p).getD i 0 + 256 * (mkWavBytes nc bits d p).getD (i+1) 0 +
           65536 * (mkWavBytes nc bits d p).getD (i+2) 0 +
           16777216 * (mkWavBytes nc bits d p).getD (i+3) 0) := by
  simp only [getU32le]
  rw [if_pos]
  rw [mkWav_length]
  omega

/-- The fmt chunk scan on the test container finds the chunk at offset 12. -/
lemma findFmt_mkWav (nc bits d : ℕ) (p : List ℕ) :
    findChunk (mkWavBytes nc bits d p) [102, 109, 116, 32]
      ((mkWavBytes nc bits d p).length + 1) 12 = some 12 := by
  have hc : (((mkWavBytes nc bits d p).length : ℤ)) = 44 + (p.length : ℤ) := by
    rw [mkWav_length]; push_cast; ring
  rw [mkWav_length]
  rw [findChunk]
  rw [hc]
  rw [if_pos (by push_cast; omega : ((12 : ℕ) : ℤ) < 44 + (p.length : ℤ) - 8)]
  rw [if_pos (show chunkIdAt (mkWavBytes nc bits d p) 12 = [102, 109, 116, 32] from rfl)]

/-- The data chunk scan on the test container: the fmt chunk at offset 12 is
skipped (16 bytes plus the 8-byte header), and the scan condition at offset
36 holds exactly when at least one payload byte follows, finding the data
chunk there. -/
lemma findData_mkWav (nc bits d : ℕ) (p : List ℕ) (hpl : 1 ≤ p.length) :
    findChunk (mkWavBytes nc bits d p) [100, 97, 116, 97]
      ((mkWavBytes nc bits d p).length + 1) 12 = some 36 := by
  have hc : (((mkWavBytes nc bits d p).length : ℤ)) = 44 + (p.length : ℤ) := by
    rw [mkWav_length]; push_cast; ring
  rw [mkWav_length]
  rw [findChunk]
  rw [hc]
  rw [if_pos (by push_cast; omega : ((12 : ℕ) : ℤ) < 44 + (p.length : ℤ) - 8)]
  rw [if_neg (by
    rw [show chunkIdAt (mkWavBytes nc bits d p) 12 = [102, 109, 116, 32] from rfl]
    decide)]
  rw [show getU32d (mkWavBytes nc bits d p) (12 + 4) = 16 from rfl]
  rw [show (12 + 8 + 16 + (if (16 : ℕ) % 2 = 1 then 1 else 0) : ℕ) = 36 from by norm_num]
  rw [show (44 + p.length : ℕ) = (43 + p.length) + 1 from by omega]
  rw [findChunk]
  rw [hc]
  rw [if_pos (by push_cast; omega : ((36 : ℕ) : ℤ) < 44 + (p.length : ℤ) - 8)]
  rw [if_pos (show chunkIdAt (mkWavBytes nc bits d p) 36 = [100, 97, 116, 97] from rfl)]

set_option maxRecDepth 8192 in
/-- Header processing of the test container: the parser reads format code 1,
the given channel count and bit depth, sample rate 44100, and hands the
data chunk at offset 44 with the declared size to the decode phase. -/
lemma extract_mkWav (nc bits d : ℕ) (p : List ℕ)
    (hnc : nc < 65536) (hbits : bits < 65536) (hd : d < 4294967296) (hpl : 1 ≤ p.length) :
    extractRawPCMFromWAV (mkWavBytes nc bits d p) =
      wavDecodePhase (mkWavBytes nc bits d p) 1 nc 44100 bits 44 d := by
  have g0 : getU8 (mkWavBytes nc bits d p) 0 = .ok 82 := by
    rw [getU8_mkWav _ _ _ _ 0 (by omega)]
    rfl
  have g1 : getU8 (mkWavBytes nc bits d p) 1 = .ok 73 := by
    rw [getU8_mkWav _ _ _ _ 1 (by omega)]
    rfl
  have g2 : getU8 (mkWavBytes nc bits d p) 2 = .ok 70 := by
    rw [getU8_mkWav _ _ _ _ 2 (by omega)]
    rfl
  have g3 : getU8 (mkWavBytes nc bits d p) 3 = .ok 70 := by
    rw [getU8_mkWav _ _ _ _ 3 (by omega)]
    rfl
  have g8 : getU8 (mkWavBytes nc bits d p) 8 = .ok 87 := by
    rw [getU8_mkWav _ _ _ _ 8 (by omega)]
    rfl
  have g9 : getU8 (mkWavBytes nc bits d p) 9 = .ok 65 := by
    rw [getU8_mkWav _ _ _ _ 9 (by omega)]
    rfl
  have g10 : getU8 (mkWavBytes nc bits d p) 10 = .ok 86 := by
    rw [getU8_mkWav _ _ _ _ 10 (by omega)]
    rfl
  have g11 : getU8 (mkWavBytes nc bits d p) 11 = .ok 69 := by
    rw [getU8_mkWav _ _ _ _ 11 (by omega)]
    rfl
  have gfmt : getU16le (mkWavBytes nc bits d p) (12 + 8) = .ok 1 := by
    rw [show (12 + 8 : ℕ) = 20 from rfl, getU16_mkWav _ _ _ _ 20 (by omega)]
    rfl
  have gch : getU16le (mkWavBytes nc bits d p) (12 + 10) = .ok nc := by
    rw [show (12 + 10 : ℕ) = 22 from rfl, getU16_mkWav _ _ _ _ 22 (by omega)]
    rw [show (mkWavBytes nc bits d p).getD 22 0 = nc % 256 from rfl,
        show (mkWavBytes nc bits d p).getD 23 0 = nc / 256 % 256 from rfl]
    congr 1
    omega
  have gsr : getU32le (mkWavBytes nc bits d p) (12 + 12) = .ok 44100 := by
    rw [show (12 + 12 : ℕ) = 24 from rfl, getU32_mkWav _ _ _ _ 24 (by omega)]
    rw [show (mkWavBytes nc bits d p).getD 24 0 = 68 from rfl,
        show (mkWavBytes nc bits d p).getD 25 0 = 172 from rfl,
        show (mkWavBytes nc bits d p).getD 26 0 = 0 from rfl,
        show (mkWavBytes nc bits d p).getD 27 0 = 0 from rfl]
  have gbits : getU16le (mkWavBytes nc bits d p) (12 + 22) = .ok bits := by
    rw [show (12 + 22 : ℕ) = 34 from rfl, getU16_mkWav _ _ _ _ 34 (by omega)]
    rw [show (mkWavBytes nc bits d p).getD 34 0 = bits % 256 from rfl,
        show (mkWavBytes nc bits d p).getD 35 0 = bits / 256 % 256 from rfl]
    congr 1
    omega
  have gsize : getU32d (mkWavBytes nc bits d p) (36 + 4) = d := by
    rw [show getU32d (mkWavBytes nc bits d p) (36 + 4) =
        d % 256 + 256 * (d / 256 % 256) + 65536 * (d / 65536 % 256) +
          16777216 * (d / 16777216 % 256) from rfl]
    omega
  simp only [extractRawPCMFromWAV, g0, g1, g2, g3, g8, g9, g10, g11,
    findFmt_mkWav, gfmt, gch, gsr, gbits, findData_mkWav nc bits d p hpl, gsize,
    bind, Except.bind]
  rw [if_neg (by decide : ¬([82, 73, 70, 70] ≠ [82, 73, 70, 70]))]
  rw [if_neg (by decide : ¬([87, 65, 86, 69] ≠ [87, 65, 86, 69]))]

/-- The ToIndex truncation of a natural DataView offset is the offset. -/
lemma qIdx_natCast (n : ℕ) : qIdx (n : ℚ) = n := by
  unfold qIdx
  rw [show ((n : ℚ)).floor = ⌊(n : ℚ)⌋ from rfl, Int.floor_natCast]
  exact Int.toNat_natCast n

/-- The 16-bit sample decoded from a buffer at interleaved index k of a data
chunk starting at byte 44. -/
def wav16At (bytes : List ℕ) (k : ℕ) : JQ :=
  some (qClamp ((int16OfBytes (getU8d bytes (44 + 2*k)) (getU8d bytes (44 + 2*k + 1)) : ℚ) / 32768))

/-- A 16-bit decode step never throws and reads the two bytes at the
truncated offset. -/
lemma decodeSampleAt_16 (bytes : List ℕ) (i : ℕ) :
    decodeSampleAt bytes 16 1 (((44 : ℕ) : ℚ) + (i : ℚ) * 2) = .ok (wav16At bytes i) := by
  have hcast : (((44 : ℕ) : ℚ) + (i : ℚ) * 2) = ((44 + 2 * i : ℕ) : ℚ) := by push_cast; ring
  simp only [decodeSampleAt, hcast, qIdx_natCast, wav16At]

/-- The 16-bit decode loop over a data chunk at offset 44: with the buffer
holding avail bytes past the header, the loop stops at the first sample that
would pass the declared chunk end or the buffer end, yielding exactly
min(size, avail) / 2 consecutively decoded samples (bounded by the remaining
iteration budget). -/
lemma wavDecodeLoop_16 (bytes : List ℕ) (size avail : ℕ) (hlen : bytes.length = 44 + avail) :
    ∀ fuel i, wavDecodeLoop bytes 16 1 44 size 2 fuel i =
      .ok ((List.range (min fuel (min size avail / 2 - i))).map
        (fun j => wav16At bytes (i + j))) := by
  obtain ⟨m, hm⟩ : ∃ m, min size avail = m := ⟨_, rfl⟩
  have hms : m ≤ size := hm ▸ min_le_left size avail
  have hma : m ≤ avail := hm ▸ min_le_right size avail
  have heq : m = size ∨ m = avail := by
    rcases le_total size avail with h | h
    · left; rw [← hm, min_eq_left h]
    · right; rw [← hm, min_eq_right h]
  rw [hm]
  intro fuel
  induction fuel with
  | zero => intro i; simp [wavDecodeLoop]
  | succ fuel ih =>
    intro i
    rw [wavDecodeLoop]
    by_cases hcont : i < m / 2
    · rw [if_neg]
      · rw [decodeSampleAt_16]
        simp only [bind, Except.bind, ih (i + 1), pure, Except.pure]
        have hmin : min (fuel + 1) (m / 2 - i) =
            (min fuel (m / 2 - (i + 1))) + 1 := by omega
        rw [hmin, List.range_succ_eq_map, List.map_cons, List.map_map]
        refine congrArg Except.ok ?_
        refine congrArg₂ List.cons ?_ ?_
        · norm_num
        · apply List.map_congr_left
          intro j hj
          simp only [Function.comp_apply]
          congr 1
          omega
      · push_neg
        constructor
        · exact_mod_cast (by omega : (44 + i * 2 + 2 : ℕ) ≤ 44 + size)
        · rw [hlen]
          exact_mod_cast (by omega : (44 + i * 2 + 2 : ℕ) ≤ 44 + avail)
    · rw [if_pos]
      · have hz : m / 2 - i = 0 := by omega
        rw [hz]
        simp
      · have h1 : size < 2 * i + 2 ∨ avail < 2 * i + 2 := by omega
        rcases h1 with h1 | h1
        · left
          exact_mod_cast (by omega : (44 + size : ℕ) < 44 + i * 2 + 2)
        · right
          rw [hlen]
          exact_mod_cast (by omega : (44 + avail : ℕ) < 44 + i * 2 + 2)

/-- The interleaved sample list a 16-bit test WAV decodes to: one sample per
full 16-bit word inside both the declared size and the available payload. -/
def mkWav16Samples (nc d : ℕ) (p : List ℕ) : List JQ :=
  (List.range (min d p.length / 2)).map (fun j => wav16At (mkWavBytes nc 16 d p) j)

/-- The ceiling of d / 2 over ℚ is (d + 1) / 2 in ℕ. -/
lemma ceil_half_nat (d : ℕ) : ⌈((d : ℚ)) / 2⌉ = (((d + 1) / 2 : ℕ) : ℤ) := by
  rw [Int.ceil_eq_iff]
  have h1 : 2 * ((d + 1) / 2) ≤ d + 1 := by omega
  have h2 : d ≤ 2 * ((d + 1) / 2) := by omega
  have h1q : 2 * ((((d + 1) / 2 : ℕ)) : ℚ) ≤ (d : ℚ) + 1 := by exact_mod_cast h1
  have h2q : (d : ℚ) ≤ 2 * ((((d + 1) / 2 : ℕ)) : ℚ) := by exact_mod_cast h2
  constructor
  · simp only [Int.cast_natCast]
    linarith
  · simp only [Int.cast_natCast]
    linarith

/-- The decode phase on a 16-bit test WAV with nonzero declared size:
no error, samples decoded up to the first out-of-range word, channel
averaging exactly when the channel count exceeds one. -/
lemma decodePhase_mkWav16 (nc d : ℕ) (p : List ℕ) (hnc : 1 ≤ nc) (hd : 1 ≤ d) :
    wavDecodePhase (mkWavBytes nc 16 d p) 1 nc 44100 16 44 d =
      .ok { samples :=
              if 1 < nc then
                (List.range (min d p.length / 2 / nc)).map
                  (fun i => jDivNat (jChannelSum (mkWav16Samples nc d p) nc i) nc)
              else mkWav16Samples nc d p,
            originalSamples := mkWav16Samples nc d p,
            sampleRate := 44100,
            numChannels := nc,
            bitsPerSample := 16,
            numSamples := min d p.length / 2 / nc,
            duration := ((min d p.length / 2 / nc : ℕ) : ℚ) / ((44100 : ℕ) : ℚ) } := by
  have hdq : (0 : ℚ) < (d : ℚ) := by exact_mod_cast hd
  have hncq : (0 : ℚ) < (nc : ℚ) := by exact_mod_cast hnc
  have hpos : ¬ ((d : ℚ) / ((((16 : ℕ)) : ℚ) / 8) / (nc : ℚ) ≤ 0) := by
    push_neg
    positivity
  have hts : (d : ℚ) / ((((16 : ℕ)) : ℚ) / 8) = (d : ℚ) / 2 := by norm_num
  have hiters : (⌈(d : ℚ) / ((((16 : ℕ)) : ℚ) / 8)⌉).toNat = (d + 1) / 2 := by
    rw [hts, ceil_half_nat, Int.toNat_natCast]
  simp only [wavDecodePhase]
  rw [if_neg hpos, hiters]
  rw [show (((16 : ℕ)) : ℚ) / 8 = 2 from by norm_num]
  rw [wavDecodeLoop_16 (mkWavBytes nc 16 d p) d p.length (mkWav_length nc 16 d p)
      ((d + 1) / 2) 0]
  obtain ⟨m, hm⟩ : ∃ m, min d p.length = m := ⟨_, rfl⟩
  have hmd : m ≤ d := hm ▸ min_le_left d p.length
  have hmin2 : min ((d + 1) / 2) (m / 2 - 0) = m / 2 := by omega
  simp only [mkWav16Samples, hm, hmin2, Nat.zero_add, List.length_map, List.length_range]

/-- A sample decoded from a test container reads its two bytes from the
payload. -/
lemma wav16At_mkWav (nc bits d : ℕ) (p : List ℕ) (j : ℕ) :
    wav16At (mkWavBytes nc bits d p) j = wav16OfPayload p j := by
  have hb : ∀ k : ℕ, getU8d (mkWavBytes nc bits d p) (44 + k) = p.getD k 0 := by
    intro k
    show (mkWavBytes nc bits d p).getD (44 + k) 0 = p.getD k 0
    have h44 : (44 + k) - 44 = k := by omega
    calc (mkWavBytes nc bits d p).getD (44 + k) 0
        = p.getD ((44 + k) - 44) 0 := by
          apply List.getD_append_right
          simp
      _ = p.getD k 0 := by rw [h44]
  unfold wav16At wav16OfPayload
  rw [show (44 + 2*j + 1 : ℕ) = 44 + (2*j + 1) from by omega, hb (2*j), hb (2*j + 1)]

/-- C5 (amended): a 16-bit mono WAV whose payload is shorter than the
declared data size parses without failing whenever at least one payload byte
is present: decoding stops at the buffer end, and numSamples, the sample
list and the duration reflect the actually extracted per-channel count
payload.length / 2.  (With zero payload bytes the data chunk scan itself
fails, which is the counterexample to the claim as stated.) -/
theorem c5_truncated_parse (d : ℕ) (p : List ℕ) (h1 : 1 ≤ p.length)
    (h2 : p.length < d) (h3 : d < 4294967296) :
    wavNumSamples? (extractRawPCMFromWAV (mkWavBytes 1 16 d p)) = some (p.length / 2) ∧
    wavSamples? (extractRawPCMFromWAV (mkWavBytes 1 16 d p)) =
      some ((List.range (p.length / 2)).map (wav16OfPayload p)) ∧
    wavDuration? (extractRawPCMFromWAV (mkWavBytes 1 16 d p)) =
      some (((p.length / 2 : ℕ) : ℚ) / ((44100 : ℕ) : ℚ)) := by
  rw [extract_mkWav 1 16 d p (by norm_num) (by norm_num) h3 h1]
  rw [decodePhase_mkWav16 1 d p (by norm_num) (by omega)]
  have hmin : min d p.length = p.length := min_eq_right (le_of_lt h2)
  have hsam : mkWav16Samples 1 d p = (List.range (p.length / 2)).map (wav16OfPayload p) := by
    unfold mkWav16Samples
    rw [hmin]
    exact List.map_congr_left (fun j _ => wav16At_mkWav 1 16 d p j)
  simp only [wavNumSamples?, wavSamples?, wavDuration?, hmin, hsam, Nat.div_one]
  norm_num

/-- Witness for C5 with declared size 4 and a three-byte payload. -/
theorem c5_truncated_parse_witness :
    (1 ≤ ([9, 9, 9] : List ℕ).length ∧ ([9, 9, 9] : List ℕ).length < 4 ∧
      (4 : ℕ) < 4294967296) ∧
    (wavNumSamples? (extractRawPCMFromWAV (mkWavBytes 1 16 4 [9, 9, 9])) =
        some (([9, 9, 9] : List ℕ).length / 2) ∧
     wavSamples? (extractRawPCMFromWAV (mkWavBytes 1 16 4 [9, 9, 9])) =
        some ((List.range (([9, 9, 9] : List ℕ).length / 2)).map (wav16OfPayload [9, 9, 9])) ∧
     wavDuration? (extractRawPCMFromWAV (mkWavBytes 1 16 4 [9, 9, 9])) =
        some (((([9, 9, 9] : List ℕ).length / 2 : ℕ) : ℚ) / ((44100 : ℕ) : ℚ))) :=
  ⟨⟨by norm_num, by norm_num, by norm_num⟩,
   c5_truncated_parse 4 [9, 9, 9] (by norm_num) (by norm_num) (by norm_num)⟩

/-- C5 counterexample: if the buffer ends immediately after the data chunk
header (declared size 4, zero payload bytes), the scan condition
offset < byteLength - 8 fails at the data chunk itself and the parser
throws (No data chunk) instead of returning a partial result. -/
theorem c5_zero_payload_counterexample :
    extractRawPCMFromWAV (mkWavBytes 1 16 4 []) = .error .noData := by
  rfl

/-- C10: an otherwise well-formed 16-bit mono WAV whose declared data chunk
size is zero (with at least one byte after the size field, so that the chunk
scan can still see the chunk) is rejected with the Data-chunk-is-empty
error rather than parsed into an empty result. -/
theorem c10_empty_data_chunk (p : List ℕ) (hp : 1 ≤ p.length) :
    extractRawPCMFromWAV (mkWavBytes 1 16 0 p) = .error .emptyData := by
  rw [extract_mkWav 1 16 0 p (by norm_num) (by norm_num) (by norm_num) hp]
  simp only [wavDecodePhase]
  rw [if_pos]
  norm_num

/-- Witness for C10 with a single stray payload byte. -/
theorem c10_empty_data_chunk_witness :
    (1 ≤ ([0] : List ℕ).length) ∧
    extractRawPCMFromWAV (mkWavBytes 1 16 0 [0]) = .error .emptyData :=
  ⟨by norm_num, c10_empty_data_chunk [0] (by norm_num)⟩

/-- A bit depth outside 8, 16, 24 and 32 makes the decode switch throw. -/
lemma decodeSampleAt_unsupportedDepth (bytes : List ℕ) (bits fmt : ℕ) (off : ℚ)
    (h8 : bits ≠ 8) (h16 : bits ≠ 16) (h24 : bits ≠ 24) (h32 : bits ≠ 32) :
    decodeSampleAt bytes bits fmt off = .error (.unsupportedDepth bits) := by
  unfold decodeSampleAt
  split
  · exact absurd rfl h8
  · exact absurd rfl h16
  · exact absurd rfl h24
  · exact absurd rfl h32
  · rfl

/-- Decode phase of a mono test WAV with an unsupported bit depth: as long
as the first sample fits inside both the declared chunk size and the
payload, the first loop iteration reaches the depth switch and throws.
(When the first sample does not fit, the bounds check breaks first and the
parser returns a zero-sample success instead -- the C8 counterexample.) -/
lemma decodePhase_mkWav_unsupported (bits d : ℕ) (p : List ℕ)
    (h8 : bits ≠ 8) (h16 : bits ≠ 16) (h24 : bits ≠ 24) (h32 : bits ≠ 32)
    (hb1 : 1 ≤ bits) (hbd : bits ≤ 8 * d) (hbp : bits ≤ 8 * p.length) :
    wavDecodePhase (mkWavBytes 1 bits d p) 1 1 44100 bits 44 d =
      .error (.unsupportedDepth bits) := by
  have hd1 : 1 ≤ d := by omega
  have hbq : (0 : ℚ) < (bits : ℚ) := by exact_mod_cast hb1
  have hdq : (0 : ℚ) < (d : ℚ) := by exact_mod_cast hd1
  have hbdq : (bits : ℚ) ≤ 8 * (d : ℚ) := by exact_mod_cast hbd
  have hbpq : (bits : ℚ) ≤ 8 * ((p.length : ℕ) : ℚ) := by exact_mod_cast hbp
  have hts : (0 : ℚ) < (d : ℚ) / ((bits : ℚ) / 8) / (((1 : ℕ)) : ℚ) := by positivity
  have hpos : (0 : ℚ) < (d : ℚ) / ((bits : ℚ) / 8) := by positivity
  obtain ⟨f, hf⟩ : ∃ f, (⌈(d : ℚ) / ((bits : ℚ) / 8)⌉).toNat = f + 1 := by
    have hc := Int.ceil_pos.mpr hpos
    exact ⟨(⌈(d : ℚ) / ((bits : ℚ) / 8)⌉).toNat - 1, by omega⟩
  have hcond : ¬ ((((44 : ℕ)) : ℚ) + (d : ℚ) <
        (((44 : ℕ)) : ℚ) + (((0 : ℕ)) : ℚ) * ((bits : ℚ) / 8) + (bits : ℚ) / 8 ∨
      (((mkWavBytes 1 bits d p).length : ℕ) : ℚ) <
        (((44 : ℕ)) : ℚ) + (((0 : ℕ)) : ℚ) * ((bits : ℚ) / 8) + (bits : ℚ) / 8) := by
    rw [mkWav_length]
    push_neg
    constructor
    · push_cast
      linarith
    · push_cast
      linarith
  have hloop : wavDecodeLoop (mkWavBytes 1 bits d p) bits 1 44 d ((bits : ℚ) / 8) (f + 1) 0 =
      .error (.unsupportedDepth bits) := by
    rw [wavDecodeLoop]
    rw [if_neg hcond]
    rw [decodeSampleAt_unsupportedDepth _ _ _ _ h8 h16 h24 h32]
    rfl
  unfold wavDecodePhase
  rw [if_neg (not_le.mpr hts), hf, hloop]

/-- C8 (amended): a buffer of at least four bytes whose first four bytes
are not the ASCII characters RIFF is rejected with the No-RIFF-header error
before any sample is produced; and a mono WAV declaring a bit depth outside
8, 16, 24 and 32 raises the unsupported-bit-depth error provided the first
sample fits inside both the declared data size and the payload
(bits <= 8 * declared and bits <= 8 * payload length).  Without that
proviso the claim fails: the bounds check breaks out of the decode loop
before the depth switch is reached and the parser returns a zero-sample
success. -/
theorem c8_format_errors :
    (∀ bytes : List ℕ, 4 ≤ bytes.length → bytes.take 4 ≠ [82, 73, 70, 70] →
      extractRawPCMFromWAV bytes = .error .noRiff) ∧
    (∀ (bits d : ℕ) (p : List ℕ), bits ≠ 8 → bits ≠ 16 → bits ≠ 24 → bits ≠ 32 →
      1 ≤ bits → bits < 65536 → d < 4294967296 → bits ≤ 8 * d → bits ≤ 8 * p.length →
      extractRawPCMFromWAV (mkWavBytes 1 bits d p) = .error (.unsupportedDepth bits)) := by
  constructor
  · intro bytes hlen hne
    match bytes, hlen with
    | b0 :: b1 :: b2 :: b3 :: rest, _ =>
      have g : ∀ i v, i < 4 → (b0 :: b1 :: b2 :: b3 :: rest).getD i 0 = v →
          getU8 (b0 :: b1 :: b2 :: b3 :: rest) i = .ok v := by
        intro i v hi hv
        simp only [getU8]
        rw [if_pos (by simp; omega)]
        rw [hv]
      have hne4 : [b0, b1, b2, b3] ≠ [82, 73, 70, 70] := by
        simpa using hne
      simp only [extractRawPCMFromWAV,
        g 0 b0 (by omega) rfl, g 1 b1 (by omega) rfl,
        g 2 b2 (by omega) rfl, g 3 b3 (by omega) rfl,
        bind, Except.bind]
      rw [if_pos hne4]
  · intro bits d p h8 h16 h24 h32 hb1 hblt hd hbd hbp
    have hpl : 1 ≤ p.length := by omega
    rw [extract_mkWav 1 bits d p (by norm_num) hblt hd hpl]
    exact decodePhase_mkWav_unsupported bits d p h8 h16 h24 h32 hb1 hbd hbp

/-- C8 counterexample: a well-formed mono WAV declaring 48 bits per sample
(outside 8, 16, 24, 32) over a 4-byte data chunk raises no error at all:
the decode loop's bounds check (44 + 6 > 44 + 4) breaks before the depth
switch is reached and the parser returns a zero-sample success. -/
theorem c8_depth_counterexample :
    extractRawPCMFromWAV (mkWavBytes 1 48 4 [0, 0, 0, 0]) =
      .ok { samples := [], originalSamples := [], sampleRate := 44100,
            numChannels := 1, bitsPerSample := 48, numSamples := 0, duration := 0 } ∧
    ((48 : ℕ) ≠ 8 ∧ (48 : ℕ) ≠ 16 ∧ (48 : ℕ) ≠ 24 ∧ (48 : ℕ) ≠ 32) := by
  refine ⟨?_, by norm_num⟩
  rw [extract_mkWav 1 48 4 [0, 0, 0, 0] (by norm_num) (by norm_num) (by norm_num) (by norm_num)]
  unfold wavDecodePhase
  rw [if_neg (by norm_num)]
  rw [show ((4 : ℕ) : ℚ) / (((48 : ℕ) : ℚ) / 8) = 2 / 3 from by norm_num]
  rw [show (⌈(2 / 3 : ℚ)⌉).toNat = 0 + 1 from by
    rw [show ⌈(2 / 3 : ℚ)⌉ = 1 from by
      rw [Int.ceil_eq_iff]
      constructor
      · norm_num
      · norm_num]
    rfl]
  rw [wavDecodeLoop]
  rw [if_pos (by
    left
    push_cast
    norm_num)]
  norm_num

/-- Witness for C8: the non-RIFF conjunct at a four-byte buffer, and the
depth conjunct at the 12-bit container of the spec's example. -/
theorem c8_format_errors_witness :
    ((4 ≤ ([0, 0, 0, 0] : List ℕ).length ∧
        ([0, 0, 0, 0] : List ℕ).take 4 ≠ [82, 73, 70, 70]) ∧
      extractRawPCMFromWAV [0, 0, 0, 0] = .error .noRiff) ∧
    (((12 : ℕ) ≠ 8 ∧ (12 : ℕ) ≠ 16 ∧ (12 : ℕ) ≠ 24 ∧ (12 : ℕ) ≠ 32 ∧
        1 ≤ (12 : ℕ) ∧ (12 : ℕ) < 65536 ∧ (3 : ℕ) < 4294967296 ∧
        (12 : ℕ) ≤ 8 * 3 ∧ (12 : ℕ) ≤ 8 * ([0, 0, 0] : List ℕ).length) ∧
      extractRawPCMFromWAV (mkWavBytes 1 12 3 [0, 0, 0]) =
        .error (.unsupportedDepth 12)) :=
  ⟨⟨⟨by norm_num, by decide⟩, c8_format_errors.1 [0, 0, 0, 0] (by norm_num) (by decide)⟩,
   ⟨⟨by norm_num, by norm_num, by norm_num, by norm_num, by norm_num, by norm_num,
      by norm_num, by norm_num, by norm_num⟩,
    c8_format_errors.2 12 3 [0, 0, 0] (by norm_num) (by norm_num) (by norm_num)
      (by norm_num) (by norm_num) (by norm_num) (by norm_num) (by norm_num) (by norm_num)⟩⟩

/-- The two-channel instance of the channel sum. -/
lemma jChannelSum_two (l : List JQ) (i : ℕ) :
    jChannelSum l 2 i =
      jAdd (jAdd (some 0) (l.getD (i * 2 + 0) (some 0))) (l.getD (i * 2 + 1) (some 0)) := by
  unfold jChannelSum
  rw [show List.range 2 = [0, 1] from by decide]
  rfl

/-- C9: for 16-bit WAVs with more than one channel (here an arbitrary
payload with the declared size equal to the payload size), the mono output
is the per-frame average across the interleaved channels; in particular the
two-channel file whose channels are constantly +0.5 and -0.5 parses to an
all-zero mono buffer. -/
theorem c9_channel_averaging :
    (∀ (nc : ℕ) (p : List ℕ), 2 ≤ nc → nc < 65536 → 1 ≤ p.length →
      p.length < 4294967296 →
      wavSamples? (extractRawPCMFromWAV (mkWavBytes nc 16 p.length p)) =
        some ((List.range (p.length / 2 / nc)).map
          (fun i => jDivNat
            (jChannelSum ((List.range (p.length / 2)).map (wav16OfPayload p)) nc i) nc))) ∧
    wavSamples? (extractRawPCMFromWAV (mkWavBytes 2 16 8 [0, 64, 0, 192, 0, 64, 0, 192])) =
      some [some 0, some 0] := by
  have hA : ∀ (nc : ℕ) (p : List ℕ), 2 ≤ nc → nc < 65536 → 1 ≤ p.length →
      p.length < 4294967296 →
      wavSamples? (extractRawPCMFromWAV (mkWavBytes nc 16 p.length p)) =
        some ((List.range (p.length / 2 / nc)).map
          (fun i => jDivNat
            (jChannelSum ((List.range (p.length / 2)).map (wav16OfPayload p)) nc i) nc)) := by
    intro nc p hnc2 hnc hpl hplsz
    rw [extract_mkWav nc 16 p.length p hnc (by norm_num) hplsz hpl]
    rw [decodePhase_mkWav16 nc p.length p (by omega) hpl]
    have hsam : mkWav16Samples nc p.length p =
        (List.range (p.length / 2)).map (wav16OfPayload p) := by
      unfold mkWav16Samples
      rw [min_self]
      exact List.map_congr_left (fun j _ => wav16At_mkWav nc 16 p.length p j)
    simp only [wavSamples?, min_self, hsam, if_pos (by omega : 1 < nc)]
  refine ⟨hA, ?_⟩
  have h := hA 2 [0, 64, 0, 192, 0, 64, 0, 192] (by norm_num) (by norm_num) (by norm_num)
    (by norm_num)
  rw [show List.length [(0 : ℕ), 64, 0, 192, 0, 64, 0, 192] = 8 from rfl] at h
  rw [h]
  rw [show (8 : ℕ) / 2 / 2 = 2 from by norm_num, show (8 : ℕ) / 2 = 4 from by norm_num]
  rw [show List.range 2 = [0, 1] from by decide, show List.range 4 = [0, 1, 2, 3] from by decide]
  simp only [List.map_cons, List.map_nil]
  have w0 : wav16OfPayload [0, 64, 0, 192, 0, 64, 0, 192] 0 = some (1/2) := by
    norm_num [wav16OfPayload, int16OfBytes, qClamp, min_def, max_def]
  have w1 : wav16OfPayload [0, 64, 0, 192, 0, 64, 0, 192] 1 = some (-(1/2)) := by
    norm_num [wav16OfPayload, int16OfBytes, qClamp, min_def, max_def]
  have w2 : wav16OfPayload [0, 64, 0, 192, 0, 64, 0, 192] 2 = some (1/2) := by
    norm_num [wav16OfPayload, int16OfBytes, qClamp, min_def, max_def]
  have w3 : wav16OfPayload [0, 64, 0, 192, 0, 64, 0, 192] 3 = some (-(1/2)) := by
    norm_num [wav16OfPayload, int16OfBytes, qClamp, min_def, max_def]
  rw [w0, w1, w2, w3, jChannelSum_two, jChannelSum_two]
  rw [show ((0 : ℕ) * 2 + 0) = 0 from by norm_num, show ((0 : ℕ) * 2 + 1) = 1 from by norm_num,
      show ((1 : ℕ) * 2 + 0) = 2 from by norm_num, show ((1 : ℕ) * 2 + 1) = 3 from by norm_num]
  rw [show List.getD [some ((1:ℚ)/2), some (-(1/2)), some (1/2), some (-(1/2))] 0 (some 0) =
        some ((1:ℚ)/2) from rfl,
      show List.getD [some ((1:ℚ)/2), some (-(1/2)), some (1/2), some (-(1/2))] 1 (some 0) =
        some (-((1:ℚ)/2)) from rfl,
      show List.getD [some ((1:ℚ)/2), some (-(1/2)), some (1/2), some (-(1/2))] 2 (some 0) =
        some ((1:ℚ)/2) from rfl,
      show List.getD [some ((1:ℚ)/2), some (-(1/2)), some (1/2), some (-(1/2))] 3 (some 0) =
        some (-((1:ℚ)/2)) from rfl]
  norm_num [jAdd, jDivNat]

/-- Witness for C9 on a one-frame stereo file. -/
theorem c9_channel_averaging_witness :
    ((2 : ℕ) ≤ 2 ∧ (2 : ℕ) < 65536 ∧ 1 ≤ ([0, 64, 0, 192] : List ℕ).length ∧
      ([0, 64, 0, 192] : List ℕ).length < 4294967296) ∧
    wavSamples? (extractRawPCMFromWAV
        (mkWavBytes 2 16 ([0, 64, 0, 192] : List ℕ).length [0, 64, 0, 192])) =
      some ((List.range (([0, 64, 0, 192] : List ℕ).length / 2 / 2)).map
        (fun i => jDivNat
          (jChannelSum ((List.range (([0, 64, 0, 192] : List ℕ).length / 2)).map
            (wav16OfPayload [0, 64, 0, 192])) 2 i) 2)) :=
  ⟨⟨by norm_num, by norm_num, by norm_num, by norm_num⟩,
   c9_channel_averaging.1 2 [0, 64, 0, 192] (by norm_num) (by norm_num) (by norm_num)
     (by norm_num)⟩

/-- Concrete run of the generator at overlap 1 on a four-sample input with
fftSize 4: the NaN-bounded frame loop runs zero iterations and an
empty-matrix result is returned, with no error raised. -/
lemma gen_overlap_one (sr : ℝ) (x : List ℝ) (hx : x.length = 4) :
    generateSpectrogram (.pcm x) { samplingRate := sr, fftSize := 4, overlap := 1 } =
      .ok { spectrogram := [], times := [],
            frequencies := calcFreqs 4 sr,
            options := { samplingRate := sr, fftSize := 4, overlap := 1,
                         duration := some (4 / sr) } } := by
  have hlen : audioInputLength (.pcm x) = 4 := hx
  have hpad : genPadded (prepareInput (.pcm x)) 4 = x := by
    unfold genPadded prepareInput
    rw [hx]
    norm_num
  have hslice : jsSliceZero x 4 = x := by
    unfold jsSliceZero
    rw [if_neg (by norm_num)]
    rw [show ((4 : ℤ)).toNat = 4 from rfl, ← hx]
    exact List.take_length x
  have hcalc : calculateSpectrum x { samplingRate := sr, fftSize := 4, overlap := 1 } =
      .ok (calcFrame 4 x .hanning, calcFreqs 4 sr) := by
    unfold calculateSpectrum
    dsimp only
    rw [if_neg (by norm_num)]
    rw [if_neg (by decide)]
    rfl
  have hhop : genHop 4 1 = 0 := by
    unfold genHop
    rw [show (((4 : ℤ)) : ℝ) * (1 - 1) = 0 from by norm_num]
    exact Int.floor_zero
  unfold generateSpectrogram
  rw [hlen]
  rw [if_neg (by norm_num)]
  simp only [hpad, hslice, hcalc]
  unfold genBody
  rw [hhop, hx]
  rw [show totalTimeFramesJS ((4 : ℕ) : ℤ) 4 0 = some 0 from by
    unfold totalTimeFramesJS
    rw [if_pos rfl, if_pos (by norm_num)]]
  simp only [Int.toNat_zero, List.range_zero, List.filterMap_nil, List.map_nil]
  norm_num

/-- C1 counterexample: with overlap 1 (an invalid overlap the claim says is
rejected up front) and a four-sample input at fftSize 4, generateSpectrogram
raises no error at all: it returns an empty-matrix result. -/
theorem c1_no_overlap_validation_counterexample :
    generateSpectrogram (.pcm [0, 0, 0, 0]) { fftSize := 4, overlap := 1 } =
      .ok { spectrogram := [], times := [],
            frequencies := calcFreqs 4 44100,
            options := { fftSize := 4, overlap := 1, duration := some (4 / 44100) } } :=
  gen_overlap_one 44100 [0, 0, 0, 0] rfl

/-- C1 (amended): the only InvalidInputError check performed before any
computation is the empty-input check (for both input kinds); overlap >= 1 is
not validated (overlap 1 with a full frame of input returns an empty result
without error), and a non-positive fftSize is not validated either — it
fails only later, inside the first spectrum computation, with a different
error (the fft.js size error for fftSize 0, a typed-array RangeError for
negative fftSize). -/
theorem c1_empty_input_only_validation :
    (∀ o : SpectrogramOptions, generateSpectrogram (.pcm []) o = .err .invalidEmptyInput) ∧
    (∀ o : SpectrogramOptions, generateSpectrogram (.metering []) o = .err .invalidEmptyInput) ∧
    generateSpectrogram (.pcm [0, 0, 0, 0]) { samplingRate := 2, fftSize := 4, overlap := 1 } =
      .ok { spectrogram := [], times := [],
            frequencies := calcFreqs 4 2,
            options := { samplingRate := 2, fftSize := 4, overlap := 1,
                         duration := some (4 / 2) } } ∧
    generateSpectrogram (.pcm [5, 6]) { fftSize := 0 } = .err .fftSizeInvalid ∧
    generateSpectrogram (.pcm [5, 6]) { fftSize := -4 } = .err .typedArrayRange := by
  refine ⟨?_, ?_, gen_overlap_one 2 [0, 0, 0, 0] rfl, ?_, ?_⟩
  · intro o
    unfold generateSpectrogram
    rw [if_pos (show audioInputLength (.pcm []) = 0 from rfl)]
  · intro o
    unfold generateSpectrogram
    rw [if_pos (show audioInputLength (.metering []) = 0 from rfl)]
  · have hc : calculateSpectrum
        (jsSliceZero (genPadded (prepareInput (.pcm [5, 6])) ((0 : ℤ))) 0)
        { fftSize := 0 } = .error .fftSizeInvalid := by
      unfold calculateSpectrum
      dsimp only
      rw [if_neg (by norm_num), if_pos (by decide)]
    unfold generateSpectrogram
    rw [if_neg (by norm_num [audioInputLength])]
    dsimp only
    rw [hc]
  · have hc : calculateSpectrum
        (jsSliceZero (genPadded (prepareInput (.pcm [5, 6])) ((-4 : ℤ))) (-4))
        { fftSize := -4 } = .error .typedArrayRange := by
      unfold calculateSpectrum
      dsimp only
      rw [if_pos (by norm_num)]
    unfold generateSpectrogram
    rw [if_neg (by norm_num [audioInputLength])]
    dsimp only
    rw [hc]

/-- C2 counterexample: with samplingRate -1 (never validated), generation
succeeds but the frequency axis [0, -1/4] is not strictly increasing. -/
theorem c2_negative_rate_counterexample :
    generateSpectrogram (.pcm [0, 0, 0, 0])
        { samplingRate := -1, fftSize := 4, overlap := 1 } =
      .ok { spectrogram := [], times := [],
            frequencies := calcFreqs 4 (-1),
            options := { samplingRate := -1, fftSize := 4, overlap := 1,
                         duration := some (4 / (-1)) } } ∧
    ¬ List.Pairwise (· < ·) (calcFreqs 4 (-1)) := by
  refine ⟨gen_overlap_one (-1) [0, 0, 0, 0] rfl, ?_⟩
  unfold calcFreqs
  rw [show List.range (4 / 2) = [0, 1] from by decide]
  simp only [List.map_cons, List.map_nil, List.pairwise_cons]
  intro hcon
  have h1 := hcon.1 (1 * ((-1) / ((4 : ℕ) : ℝ))) (by simp)
  norm_num at h1

/-- The magnitude list of one frame has fftSize / 2 entries. -/
lemma calcFrame_length (n : ℕ) (f : List ℝ) (t : WindowType) :
    (calcFrame n f t).length = n / 2 := by
  simp [calcFrame]

/-- The frequency axis has fftSize / 2 entries. -/
lemma calcFreqs_length (n : ℕ) (sr : ℝ) : (calcFreqs n sr).length = n / 2 := by
  simp [calcFreqs]

/-- Lists of at most one element are vacuously pairwise related. -/
lemma pairwise_of_length_le_one {α : Type} {R : α → α → Prop} :
    ∀ l : List α, l.length ≤ 1 → l.Pairwise R
  | [], _ => .nil
  | [a], _ => List.pairwise_singleton R a
  | a :: b :: t, h => by simp at h

/-- A filterMap whose function is an if-guarded some is a filter then map. -/
lemma filterMap_option_ite {α β : Type} (c : α → Prop) [DecidablePred c] (f : α → β)
    (l : List α) :
    l.filterMap (fun a => if c a then none else some (f a)) =
      (l.filter (fun a => decide (¬ c a))).map f := by
  induction l with
  | nil => rfl
  | cons x xs ih =>
    by_cases h : c x
    · simp [List.filterMap_cons, List.filter_cons, h, ih]
    · simp [List.filterMap_cons, List.filter_cons, h, ih]

/-- C2 (amended): on every successful generateSpectrogram call with a
positive samplingRate, the result has as many time stamps as spectrogram
rows, every row as long as the frequency axis, frequency axis of length
fftSize / 2, strictly increasing frequencies and non-decreasing times.
(With samplingRate <= 0, which the code never validates, generation still
succeeds while the frequency axis fails to increase.) -/
theorem c2_result_invariants (input : AudioInput) (o : SpectrogramOptions)
    (r : SpectrogramResult) (hsr : 0 < o.samplingRate)
    (h : generateSpectrogram input o = .ok r) :
    r.times.length = r.spectrogram.length ∧
    (∀ row ∈ r.spectrogram, row.length = r.frequencies.length) ∧
    r.frequencies.length = o.fftSize.toNat / 2 ∧
    List.Pairwise (· < ·) r.frequencies ∧
    List.Pairwise (· ≤ ·) r.times := by
  unfold generateSpectrogram at h
  by_cases h0 : audioInputLength input = 0
  · rw [if_pos h0] at h
    exact absurd h (by simp)
  rw [if_neg h0] at h
  rcases hc : calculateSpectrum
      (jsSliceZero (genPadded (prepareInput input) o.fftSize) o.fftSize) o with e | pair
  · rw [hc] at h
    exact absurd h (by simp)
  obtain ⟨mags, freqs⟩ := pair
  rw [hc] at h
  dsimp only at h
  unfold calculateSpectrum at hc
  have hfn : freqs = calcFreqs o.fftSize.toNat o.samplingRate ∧ 1 < o.fftSize.toNat := by
    by_cases h1 : o.fftSize < 0
    · rw [if_pos h1] at hc
      exact absurd hc (by simp)
    rw [if_neg h1] at hc
    by_cases h2 : 1 < o.fftSize.toNat ∧ o.fftSize.toNat &&& (o.fftSize.toNat - 1) = 0
    · rw [if_neg (not_not_intro h2)] at hc
      rw [Except.ok.injEq, Prod.mk.injEq] at hc
      exact ⟨hc.2.symm, h2.1⟩
    · rw [if_pos h2] at hc
      exact absurd hc (by simp)
  obtain ⟨hfreqs, hn⟩ := hfn
  unfold genBody at h
  rcases ht : totalTimeFramesJS
      ((genPadded (prepareInput input) o.fftSize).length : ℤ) o.fftSize
      (genHop o.fftSize o.overlap) with _ | T
  · rw [ht] at h
    exact absurd h (by simp)
  rw [ht] at h
  dsimp only at h
  simp only [GenOutcome.ok.injEq] at h
  subst h
  set s := genPadded (prepareInput input) o.fftSize with hs
  set hop := genHop o.fftSize o.overlap with hhop
  set D := ((s.length : ℝ)) / o.samplingRate with hD
  have hpairs : (List.range T.toNat).filterMap (genFrameStep s o hop T D) =
      ((List.range T.toNat).filter
        (fun (i : ℕ) => decide (¬ ((s.length : ℤ) < (i : ℤ) * hop + o.fftSize)))).map
        (fun (i : ℕ) =>
          ((calcFrame o.fftSize.toNat ((s.drop (((i : ℤ) * hop).toNat)).take o.fftSize.toNat)
              o.windowType).map linearToDb,
           if 1 < T then ((i : ℝ) / ((T : ℝ) - 1)) * D else D / 2)) :=
    filterMap_option_ite _ _ _
  rw [hpairs]
  rw [List.map_map, List.map_map]
  constructor
  · simp only [List.length_map]
  refine ⟨?_, ?_, ?_, ?_⟩
  · intro row hrow
    simp only [List.mem_map] at hrow
    obtain ⟨i, _, hrow⟩ := hrow
    rw [← hrow]
    simp only [Function.comp_apply, List.length_map, calcFrame_length, hfreqs, calcFreqs_length]
  · rw [hfreqs, calcFreqs_length]
  · rw [hfreqs]
    unfold calcFreqs
    apply List.Pairwise.map _ _ (List.pairwise_lt_range _)
    intro a b hab
    have hd : (0 : ℝ) < o.samplingRate / (o.fftSize.toNat : ℝ) := by
      apply div_pos hsr
      exact_mod_cast Nat.lt_of_lt_of_le Nat.zero_lt_one (le_of_lt hn)
    have hab2 : (a : ℝ) < (b : ℝ) := by exact_mod_cast hab
    exact mul_lt_mul_of_pos_right hab2 hd
  · by_cases hT : (1 : ℤ) < T
    · have hD0 : 0 ≤ D := by
        rw [hD]
        apply div_nonneg _ (le_of_lt hsr)
        exact_mod_cast Nat.zero_le _
      have hT1 : (0 : ℝ) < (T : ℝ) - 1 := by
        have h4 : (1 : ℝ) < (T : ℝ) := by exact_mod_cast hT
        linarith
      apply List.Pairwise.map
      · intro a b hab
        simp only [Function.comp_apply]
        rw [if_pos hT, if_pos hT]
        apply mul_le_mul_of_nonneg_right _ hD0
        rw [div_le_div_iff_of_pos_right hT1]
        exact_mod_cast le_of_lt hab
      · exact (List.pairwise_lt_range _).filter _
    · apply pairwise_of_length_le_one
      have hTle : T.toNat ≤ 1 := by omega
      calc (((List.range T.toNat).filter _).map _).length
          ≤ (List.range T.toNat).length := by
            rw [List.length_map]
            exact List.length_filter_le _ _
        _ ≤ 1 := by rw [List.length_range]; exact hTle

/-- A concrete successful generation used to witness C2. -/
noncomputable def c2WitnessResult : SpectrogramResult :=
  { spectrogram := [], times := [],
    frequencies := calcFreqs 4 4,
    options := { samplingRate := 4, fftSize := 4, overlap := 1,
                 duration := some (4 / 4) } }

/-- Witness for C2 at samplingRate 4, fftSize 4, overlap 1. -/
theorem c2_result_invariants_witness :
    (0 < ({ samplingRate := 4, fftSize := 4, overlap := 1 } : SpectrogramOptions).samplingRate ∧
     generateSpectrogram (.pcm [0, 0, 0, 0])
         { samplingRate := 4, fftSize := 4, overlap := 1 } = .ok c2WitnessResult) ∧
    (c2WitnessResult.times.length = c2WitnessResult.spectrogram.length ∧
     (∀ row ∈ c2WitnessResult.spectrogram, row.length = c2WitnessResult.frequencies.length) ∧
     c2WitnessResult.frequencies.length =
       ({ samplingRate := 4, fftSize := 4, overlap := 1 } : SpectrogramOptions).fftSize.toNat / 2 ∧
     List.Pairwise (· < ·) c2WitnessResult.frequencies ∧
     List.Pairwise (· ≤ ·) c2WitnessResult.times) :=
  ⟨⟨by norm_num, gen_overlap_one 4 [0, 0, 0, 0] rfl⟩,
   c2_result_invariants (.pcm [0, 0, 0, 0]) { samplingRate := 4, fftSize := 4, overlap := 1 }
     c2WitnessResult (by norm_num) (gen_overlap_one 4 [0, 0, 0, 0] rfl)⟩

/-- A filterMap by a function that never returns none keeps the length. -/
lemma length_filterMap_of_all_some {α β : Type} (f : α → Option β) :
    ∀ l : List α, (∀ a ∈ l, (f a).isSome) → (l.filterMap f).length = l.length := by
  intro l
  induction l with
  | nil => simp
  | cons x xs ih =>
    intro h
    rw [List.filterMap_cons]
    rcases hfx : f x with _ | v
    · exact absurd (h x (by simp)) (by rw [hfx]; simp)
    · have h10 := ih (fun a ha => h a (by simp [ha]))
      simp [h10]

/-- Full-frame generation at overlap 0: an input of exactly k * n samples
with fftSize n produces exactly k frames (hop = n, no skipped frames). -/
lemma gen_overlap_zero (n k : ℕ) (xs : List ℝ) (hn : 1 < n) (hp2 : n &&& (n - 1) = 0)
    (hk : 1 ≤ k) (hlen : xs.length = k * n) :
    GenOutcome.rowsLen? (generateSpectrogram (.pcm xs) { fftSize := (n : ℤ), overlap := 0 })
      = some k ∧
    GenOutcome.timesLen? (generateSpectrogram (.pcm xs) { fftSize := (n : ℤ), overlap := 0 })
      = some k := by
  have hnn : n ≤ k * n := by nlinarith
  have hlen0 : ¬ (audioInputLength (.pcm xs) = 0) := by
    show ¬ (xs.length = 0)
    rw [hlen]
    have h6 := Nat.mul_pos (show 0 < k by omega) (show 0 < n by omega)
    omega
  have hpad : genPadded (prepareInput (.pcm xs)) ((n : ℕ) : ℤ) = xs := by
    unfold genPadded prepareInput
    rw [if_neg]
    rw [not_lt, hlen]
    exact_mod_cast hnn
  have hcalc : calculateSpectrum (jsSliceZero xs ((n : ℕ) : ℤ))
      { fftSize := (n : ℤ), overlap := 0 } =
      .ok (calcFrame n (jsSliceZero xs ((n : ℕ) : ℤ)) .hanning, calcFreqs n 44100) := by
    unfold calculateSpectrum
    dsimp only
    simp only [Int.toNat_natCast]
    rw [if_neg (by exact_mod_cast not_lt.mpr (Int.natCast_nonneg n))]
    rw [if_neg (not_not_intro ⟨hn, hp2⟩)]
  have hhop : genHop ((n : ℕ) : ℤ) 0 = ((n : ℕ) : ℤ) := by
    unfold genHop
    rw [show ((((n : ℕ) : ℤ)) : ℝ) * (1 - 0) = (((n : ℕ) : ℤ) : ℝ) from by ring]
    exact Int.floor_intCast _
  have hnq : ((n : ℕ) : ℚ) ≠ 0 := by
    exact_mod_cast (show n ≠ 0 by omega)
  have ht : totalTimeFramesJS ((xs.length : ℕ) : ℤ) ((n : ℕ) : ℤ) ((n : ℕ) : ℤ) =
      some ((k : ℕ) : ℤ) := by
    unfold totalTimeFramesJS
    rw [if_neg (by exact_mod_cast (show n ≠ 0 by omega))]
    rw [show ((xs.length : ℤ) - ((n : ℕ) : ℤ) : ℚ) = ((k - 1 : ℕ) : ℚ) * ((((n : ℕ) : ℤ)) : ℚ)
        from by
      push_cast
      rw [hlen]
      push_cast [Nat.cast_sub hk]
      ring]
    rw [mul_div_assoc, div_self (by exact_mod_cast (show n ≠ 0 by omega)), mul_one,
      Int.floor_natCast]
    congr 1
    omega
  unfold generateSpectrogram
  rw [if_neg hlen0]
  rw [hpad, hcalc]
  dsimp only
  unfold genBody
  rw [hhop, ht]
  have hsome : ∀ i ∈ List.range ((((k : ℕ) : ℤ)).toNat),
      (genFrameStep xs { fftSize := (n : ℤ), overlap := 0 } ((n : ℕ) : ℤ) ((k : ℕ) : ℤ)
        ((xs.length : ℝ) /
          ({ fftSize := (n : ℤ), overlap := 0 } : SpectrogramOptions).samplingRate) i).isSome := by
    intro i hi
    rw [List.mem_range, Int.toNat_natCast] at hi
    unfold genFrameStep
    split
    · next hlt =>
      exfalso
      dsimp only at hlt
      rw [hlen] at hlt
      have h8 : (i + 1) * n ≤ k * n := Nat.mul_le_mul_right n (by omega)
      have h9 : ((i + 1) * n : ℤ) ≤ ((k * n : ℕ) : ℤ) := by exact_mod_cast h8
      push_cast at h9 hlt
      linarith
    · simp
  refine ⟨?_, ?_⟩
  · simp only [GenOutcome.rowsLen?, List.length_map]
    rw [length_filterMap_of_all_some _ _ hsome]
    rw [List.length_range, Int.toNat_natCast]
  · simp only [GenOutcome.timesLen?, List.length_map]
    rw [length_filterMap_of_all_some _ _ hsome]
    rw [List.length_range, Int.toNat_natCast]

/-- C4: with overlap 0 (hop = fftSize) and a valid fftSize (a power of two
greater than one, which the fft.js constructor enforces), exactly fftSize
samples produce exactly one frame and one time stamp, and fftSize + hopSize
samples produce exactly two, following
totalFrames = max(1, floor((N - fftSize) / hopSize) + 1) with no skipped
frames. -/
theorem c4_frame_counts :
    (∀ (n : ℕ) (xs : List ℝ), 1 < n → n &&& (n - 1) = 0 → xs.length = n →
      GenOutcome.rowsLen? (generateSpectrogram (.pcm xs) { fftSize := (n : ℤ), overlap := 0 })
          = some 1 ∧
      GenOutcome.timesLen? (generateSpectrogram (.pcm xs) { fftSize := (n : ℤ), overlap := 0 })
          = some 1) ∧
    (∀ (n : ℕ) (xs : List ℝ), 1 < n → n &&& (n - 1) = 0 → xs.length = n + n →
      GenOutcome.rowsLen? (generateSpectrogram (.pcm xs) { fftSize := (n : ℤ), overlap := 0 })
          = some 2 ∧
      GenOutcome.timesLen? (generateSpectrogram (.pcm xs) { fftSize := (n : ℤ), overlap := 0 })
          = some 2) := by
  constructor
  · intro n xs hn hp2 hlen
    exact gen_overlap_zero n 1 xs hn hp2 (by omega) (by rw [hlen]; ring)
  · intro n xs hn hp2 hlen
    exact gen_overlap_zero n 2 xs hn hp2 (by omega) (by rw [hlen]; ring)

/-- Witness for C4 at fftSize 2 on a two-sample input. -/
theorem c4_frame_counts_witness :
    ((1 : ℕ) < 2 ∧ (2 : ℕ) &&& (2 - 1) = 0 ∧ ([(0 : ℝ), 0]).length = 2) ∧
    (GenOutcome.rowsLen?
        (generateSpectrogram (.pcm [(0 : ℝ), 0]) { fftSize := ((2 : ℕ) : ℤ), overlap := 0 })
        = some 1 ∧
     GenOutcome.timesLen?
        (generateSpectrogram (.pcm [(0 : ℝ), 0]) { fftSize := ((2 : ℕ) : ℤ), overlap := 0 })
        = some 1) :=
  ⟨⟨by norm_num, by decide, rfl⟩, c4_frame_counts.1 2 [0, 0] (by norm_num) (by decide) rfl⟩
